import Mathlib

/-!
Shallow embedding of `src/partial-map-with-default/index.ts`.

The source defines a closed tag set (`Cat`, `Fish`), a variant type per tag,
two partial registries keyed by the tags (a list registry and a handler
registry), and two generic getters that resolve a missing registry entry to a
fallback via the JavaScript `\x7c\x7c` operator.  Machine-level JavaScript
detail that matters here: `\x7c\x7c` picks its right operand exactly when the
left operand is falsy, and both arrays and functions are objects, hence always
truthy (even the empty array).  We model the registries as `Option`-valued
dependent functions (TypeScript `Partial` lookup yields `T \x7c undefined`)
and the `\x7c\x7c` step as an explicit truthiness-driven choice `jsOr`.
-/

/-- Tags of the closed tag set: `type AnimalName = keyof AnimalRecord`, i.e.
the identifiers `Cat` and `Fish`. -/
inductive AnimalName : Type
  | Cat : AnimalName
  | Fish : AnimalName
deriving DecidableEq, Repr

/-- Payload of the `Cat` variant (`interface Cat`).  The source's `type: 'cat'`
field is the constant discriminant literal; in this embedding the discriminant
is carried by the `AnyAnimal` constructor, so only the `meow` field remains. -/
structure Cat : Type where
  meow : String
deriving DecidableEq, Repr

/-- Payload of the `Fish` variant (`interface Fish`): no fields besides the
constant discriminant `type: 'fish'`. -/
structure Fish : Type where
deriving DecidableEq, Repr

/-- Union of all animal types: `type AnyAnimal = Cat | Fish`. -/
inductive AnyAnimal : Type
  | cat : Cat → AnyAnimal
  | fish : Fish → AnyAnimal
deriving DecidableEq, Repr

/-- The total tag-to-shape association `interface AnimalRecord`. -/
def AnimalRecord : AnimalName → Type
  | .Cat => Cat
  | .Fish => Fish

/-- Inclusion of a tag-specific animal into the union `AnyAnimal`; in
TypeScript this coercion is implicit (structural subtyping). -/
def toAnyAnimal : (N : AnimalName) → AnimalRecord N → AnyAnimal
  | .Cat, c => .cat c
  | .Fish, f => .fish f

/-- Per-tag list type: `type AnimalList<N extends AnimalName> = AnimalRecord[N][]`. -/
def AnimalList (N : AnimalName) : Type := List (AnimalRecord N)

/-- JavaScript truthiness of an array value: arrays are objects, so every
array is truthy — including the empty array. -/
def arrayTruthy {α : Type} (_ : List α) : Bool := true

/-- JavaScript truthiness of a function value: functions are objects, so every
function is truthy. -/
def funcTruthy {α β : Type} (_ : α → β) : Bool := true

/-- The JavaScript expression `x \x7c\x7c d` evaluated on a value `x` of type
`T \x7c undefined` (modelled as `Option`): `undefined` is falsy, and a present
value is kept exactly when it is truthy. -/
def jsOr {α : Type} (truthy : α → Bool) (o : Option α) (d : α) : α :=
  match o with
  | none => d
  | some v => if truthy v then v else d

/-- The partial list registry `const animalLists: Partial<AnimalLists>`:
populated for `Cat` only; the `Fish` entry is absent (`undefined`). -/
def animalLists : (N : AnimalName) → Option (AnimalList N)
  | .Cat => some [⟨"Did you call me?"⟩]
  | .Fish => none

/-- The fully populated registry `const idealCompleteAnimalLists: AnimalLists`:
every tag is mapped to a list, so no lookup can come back `undefined`. -/
def idealCompleteAnimalLists : (N : AnimalName) → AnimalList N
  | .Cat => [⟨"Did you call me?"⟩]
  | .Fish => [⟨⟩]

/-- Body of `getAnimalList`, with the module constant `animalLists`
generalised to an arbitrary partial registry argument: bind the lookup
(`const list = R[name]`, of type `AnimalList<N> \x7c undefined`), then apply
the fallback step `list \x7c\x7c []`. -/
def getOrDefaultList (R : (N : AnimalName) → Option (AnimalList N))
    (name : AnimalName) : AnimalList name :=
  let list : Option (AnimalList name) := R name
  jsOr arrayTruthy list []

/-- The getter `function getAnimalList<N extends AnimalName>(name: N)`:
look the tag up in the partial registry `animalLists` and resolve an absent
entry to the empty list via `\x7c\x7c`. -/
def getAnimalList (name : AnimalName) : AnimalList name :=
  getOrDefaultList animalLists name

/-- Per-tag handler type:
`type AnimalSoundPlayer<N extends AnimalName> = (animal: AnimalRecord[N]) => string`. -/
def AnimalSoundPlayer (N : AnimalName) : Type := AnimalRecord N → String

/-- The partial handler registry `const animalSoundPlayers:
Partial<AnimalSoundPlayers>`: populated for `Cat` only (`cat => cat.meow`). -/
def animalSoundPlayers : (N : AnimalName) → Option (AnimalSoundPlayer N)
  | .Cat => some (fun cat => cat.meow)
  | .Fish => none

/-- The fallback handler
`const defaultAnimalSoundPlayer = (animal: AnyAnimal) => 'I am an animal'`. -/
def defaultAnimalSoundPlayer (_ : AnyAnimal) : String := "I am an animal"

/-- The getter `function getAnimalSoundPlayer<N extends AnimalName>(name: N)`:
bind the lookup (`const player = animalSoundPlayers[name]`), then apply the
fallback step `player \x7c\x7c defaultAnimalSoundPlayer`.  At runtime the
fallback handler is used on values of the specific variant for `name`, which
TypeScript passes to the `AnyAnimal` parameter implicitly; the embedding makes
that inclusion explicit with `toAnyAnimal`. -/
def getAnimalSoundPlayer (name : AnimalName) : AnimalSoundPlayer name :=
  let player : Option (AnimalSoundPlayer name) := animalSoundPlayers name
  jsOr funcTruthy player (fun animal => defaultAnimalSoundPlayer (toAnyAnimal name animal))

/-- Generic form of the get-or-default list lookup over an arbitrary tag set
`κ` with shape association `A` — the source's mechanism with `AnimalName`
generalised, used to compare tag sets of different sizes. -/
def getOrDefaultListG {κ : Type} {A : κ → Type}
    (R : (k : κ) → Option (List (A k))) (k : κ) : List (A k) :=
  jsOr arrayTruthy (R k) []

/-- A tag set of size one, for the boundary comparison: only one tag, so a
total registry over it cannot omit anything. -/
inductive OneTag : Type
  | only : OneTag
deriving DecidableEq, Repr

/-- Module-level state of the source file: the two registry constants.  The
getters never write to it; it is threaded explicitly to state purity. -/
structure ModuleEnv : Type where
  lists : (N : AnimalName) → Option (AnimalList N)
  players : (N : AnimalName) → Option (AnimalSoundPlayer N)

/-- The module state as initialised by the source file's definitions. -/
def moduleEnv : ModuleEnv :=
  { lists := animalLists, players := animalSoundPlayers }

/-- State-passing form of `getAnimalList`: a read of the module state that
returns the looked-up list together with the (unchanged) state. -/
def getAnimalListSt (e : ModuleEnv) (name : AnimalName) :
    AnimalList name × ModuleEnv :=
  (jsOr arrayTruthy (e.lists name) [], e)

/-- State-passing form of `getAnimalSoundPlayer`: a read of the module state
that returns the looked-up handler together with the (unchanged) state. -/
def getAnimalSoundPlayerSt (e : ModuleEnv) (name : AnimalName) :
    AnimalSoundPlayer name × ModuleEnv :=
  (jsOr funcTruthy (e.players name)
    (fun animal => defaultAnimalSoundPlayer (toAnyAnimal name animal)), e)

/-- A partial list registry whose `Cat` entry is present but empty, used to
exercise the present-but-falsy boundary of the get-or-default step. -/
def emptyCatLists : (N : AnimalName) → Option (AnimalList N)
  | .Cat => some []
  | .Fish => none

/-- C1: for every tag with an entry in the partial list registry
`animalLists`, `getAnimalList` returns exactly the registry's stored list for
that tag, unaltered. -/
theorem getAnimalList_present (t : AnimalName) (v : AnimalList t)
    (h : animalLists t = some v) : getAnimalList t = v := by
  unfold getAnimalList getOrDefaultList
  rw [h]
  rfl

/-- Witness for C1 at the concrete tag `Cat`: the registry stores
`[{type: 'cat', meow: 'Did you call me?'}]` there and the getter returns
exactly that list. -/
theorem getAnimalList_present_witness :
    animalLists AnimalName.Cat = some [⟨"Did you call me?"⟩] ∧
      getAnimalList AnimalName.Cat = [⟨"Did you call me?"⟩] :=
  ⟨rfl, getAnimalList_present AnimalName.Cat [⟨"Did you call me?"⟩] rfl⟩

/-- C2: for every tag absent from the partial list registry `animalLists`,
`getAnimalList` returns the empty list as the fallback, never an error. -/
theorem getAnimalList_absent (t : AnimalName) (h : animalLists t = none) :
    getAnimalList t = [] := by
  unfold getAnimalList getOrDefaultList
  rw [h]
  rfl

/-- Witness for C2 at the concrete tag `Fish`: the registry has no entry and
the getter returns `[]`. -/
theorem getAnimalList_absent_witness :
    animalLists AnimalName.Fish = none ∧ getAnimalList AnimalName.Fish = [] :=
  ⟨rfl, getAnimalList_absent AnimalName.Fish rfl⟩

/-- C3: for every tag with an entry in the handler registry
`animalSoundPlayers`, `getAnimalSoundPlayer` returns the registered handler
for that tag. -/
theorem getAnimalSoundPlayer_present (t : AnimalName) (p : AnimalSoundPlayer t)
    (h : animalSoundPlayers t = some p) : getAnimalSoundPlayer t = p := by
  unfold getAnimalSoundPlayer
  rw [h]
  rfl

/-- Witness for C3 at the concrete tag `Cat`: the registered handler is
`cat => cat.meow`, and applying the returned handler to the animal
`{type: 'cat', meow: 'hi'}` yields `'hi'`. -/
theorem getAnimalSoundPlayer_present_witness :
    animalSoundPlayers AnimalName.Cat = some (fun cat => cat.meow) ∧
      getAnimalSoundPlayer AnimalName.Cat ⟨"hi"⟩ = "hi" := by
  refine ⟨rfl, ?_⟩
  rw [getAnimalSoundPlayer_present AnimalName.Cat (fun cat => cat.meow) rfl]

/-- C4: for every tag absent from the handler registry `animalSoundPlayers`,
`getAnimalSoundPlayer` returns the fallback handler
`defaultAnimalSoundPlayer` (applied through the implicit inclusion of the
tag's variant into `AnyAnimal`). -/
theorem getAnimalSoundPlayer_absent (t : AnimalName)
    (h : animalSoundPlayers t = none) :
    getAnimalSoundPlayer t =
      fun animal => defaultAnimalSoundPlayer (toAnyAnimal t animal) := by
  unfold getAnimalSoundPlayer
  rw [h]
  rfl

/-- Witness for C4 at the concrete tag `Fish`: the registry has no entry and
the returned handler applied to the animal `{type: 'fish'}` yields
`'I am an animal'`. -/
theorem getAnimalSoundPlayer_absent_witness :
    animalSoundPlayers AnimalName.Fish = none ∧
      getAnimalSoundPlayer AnimalName.Fish ⟨⟩ = "I am an animal" := by
  refine ⟨rfl, ?_⟩
  rw [getAnimalSoundPlayer_absent AnimalName.Fish rfl]
  rfl

/-- C5: for every tag in the closed tag set, both getters always resolve to a
defined value — the stored entry when present, the fallback when absent —
with no undefined result and no error path. -/
theorem getters_resolve_totally :
    ∀ t : AnimalName,
      ((∃ v, animalLists t = some v ∧ getAnimalList t = v) ∨
        (animalLists t = none ∧ getAnimalList t = [])) ∧
      ∀ a : AnimalRecord t,
        (∃ p, animalSoundPlayers t = some p ∧ getAnimalSoundPlayer t a = p a) ∨
          (animalSoundPlayers t = none ∧
            getAnimalSoundPlayer t a = defaultAnimalSoundPlayer (toAnyAnimal t a)) := by
  intro t
  cases t with
  | Cat =>
    exact ⟨Or.inl ⟨[⟨"Did you call me?"⟩], rfl, rfl⟩,
      fun a => Or.inl ⟨fun cat => cat.meow, rfl, rfl⟩⟩
  | Fish =>
    exact ⟨Or.inr ⟨rfl, rfl⟩, fun a => Or.inr ⟨rfl, rfl⟩⟩

/-- C6: each getter, read as an explicit state-passing operation on the
module state, leaves the state unchanged and yields the same result on a
repeated call with no intervening mutation; on the source's module state the
state-passing reads agree with the direct getters. -/
theorem lookups_pure_idempotent :
    ∀ (e : ModuleEnv) (t : AnimalName),
      (getAnimalListSt e t).2 = e ∧
      (getAnimalListSt (getAnimalListSt e t).2 t).1 = (getAnimalListSt e t).1 ∧
      (getAnimalSoundPlayerSt e t).2 = e ∧
      (getAnimalSoundPlayerSt (getAnimalSoundPlayerSt e t).2 t).1 =
        (getAnimalSoundPlayerSt e t).1 ∧
      (getAnimalListSt moduleEnv t).1 = getAnimalList t ∧
      (getAnimalSoundPlayerSt moduleEnv t).1 = getAnimalSoundPlayer t := by
  intro e t
  exact ⟨rfl, rfl, rfl, rfl, rfl, rfl⟩

/-- C8: in the get-or-default step, a present-but-empty list is a valid
present value, not an absence signal: whenever the registry stores a list for
the queried tag — the empty list included — that stored list itself is
returned, and an empty result arises only from an absent entry or from a
stored empty list. -/
theorem getOrDefaultList_present_even_empty :
    ∀ (R : (N : AnimalName) → Option (AnimalList N)) (t : AnimalName),
      (∀ v : AnimalList t, R t = some v → getOrDefaultList R t = v) ∧
      (getOrDefaultList R t = [] → R t = none ∨ R t = some []) := by
  intro R t
  constructor
  · intro v h
    unfold getOrDefaultList
    rw [h]
    rfl
  · intro h
    cases hR : R t with
    | none => exact Or.inl rfl
    | some v =>
      have hv : getOrDefaultList R t = v := by
        unfold getOrDefaultList
        rw [hR]
        rfl
      right
      rw [hv.symm.trans h]

/-- Witness for C8 on a registry whose `Cat` entry is present but empty: the
stored empty list is returned as is, through the identity branch and not as a
fallback for absence. -/
theorem getOrDefaultList_present_even_empty_witness :
    emptyCatLists AnimalName.Cat = some [] ∧
      getOrDefaultList emptyCatLists AnimalName.Cat = [] :=
  ⟨rfl, (getOrDefaultList_present_even_empty emptyCatLists AnimalName.Cat).1 [] rfl⟩

/-- C9: on a fully populated registry the get-or-default lookup returns the
stored entry for every tag and the fallback path is never taken, over any tag
set — a singleton tag set included — and concretely on
`idealCompleteAnimalLists`. -/
theorem complete_registry_never_falls_back :
    (∀ (κ : Type) (A : κ → Type) (T : (k : κ) → List (A k)) (k : κ),
        getOrDefaultListG (fun k => some (T k)) k = T k) ∧
    (∀ (A : OneTag → Type) (T : (k : OneTag) → List (A k)) (k : OneTag),
        getOrDefaultListG (fun k => some (T k)) k = T k) ∧
    (∀ t : AnimalName,
        getOrDefaultList (fun n => some (idealCompleteAnimalLists n)) t =
          idealCompleteAnimalLists t) := by
  exact ⟨fun κ A T k => rfl, fun A T k => rfl, fun t => rfl⟩

/-- C10: the fallback handler `defaultAnimalSoundPlayer` is a constant
function returning `'I am an animal'` for every animal, so any result reached
through the fallback path of `getAnimalSoundPlayer` ignores the animal it is
applied to. -/
theorem defaultAnimalSoundPlayer_constant :
    (∀ a : AnyAnimal, defaultAnimalSoundPlayer a = "I am an animal") ∧
    ∀ (t : AnimalName) (a b : AnimalRecord t), animalSoundPlayers t = none →
      getAnimalSoundPlayer t a = getAnimalSoundPlayer t b ∧
        getAnimalSoundPlayer t a = "I am an animal" := by
  constructor
  · intro a
    rfl
  · intro t a b h
    unfold getAnimalSoundPlayer
    rw [h]
    exact ⟨rfl, rfl⟩

/-- Witness for C10 at the concrete tag `Fish`: the fallback path returns
`'I am an animal'` on the animal `{type: 'fish'}`, the same value the constant
fallback gives on the union directly. -/
theorem defaultAnimalSoundPlayer_constant_witness :
    getAnimalSoundPlayer AnimalName.Fish ⟨⟩ = "I am an animal" ∧
      defaultAnimalSoundPlayer (AnyAnimal.fish ⟨⟩) = "I am an animal" :=
  ⟨(defaultAnimalSoundPlayer_constant.2 AnimalName.Fish ⟨⟩ ⟨⟩ rfl).2,
    defaultAnimalSoundPlayer_constant.1 (AnyAnimal.fish ⟨⟩)⟩
